import Mathlib

/-!
# Meditation timer engine: a shallow embedding of `src/hooks/useTimer.ts`

This file embeds the timer engine of the meditation-timer repository in Lean.
The entire engine lives in `useTimer.ts`; the UI components only forward
button presses into it, so the embedding covers that one file.

Modelling conventions:
* JS numbers that hold whole milliseconds or seconds are embedded as `Nat`
  (wall-clock instants, durations) or `Int` (values produced by subtraction,
  such as `startTimeRef`, `pausedTimeRef` and elapsed-time deltas).
* `Math.floor(x / 1000)` on an integer `x` is `Int.fdiv x 1000`.
* The React refs `startTimeRef` / `pausedTimeRef` / `intervalRef` become
  fields of the `Engine` record.
* `setInterval` returns a handle; the engine stores the handle of the most
  recent interval in `intervalRef` and every interval that has been created
  and not yet cleared in `liveIntervals`, together with the value of
  `totalDuration` its closure captured.  An interval firing is the `tick`
  event; it has an effect only while its handle is live.
* The `setTimeout` scheduled by the auto-reset branch becomes an entry of
  `pendingAutoResets` holding the captured `totalDuration`; it firing is the
  `autoResetFire` event.
* The `onComplete` / `onTick` callbacks are modelled by counters recording
  how many times they have been invoked.
* The `progress` percentage is computed in `ℚ`.
-/

namespace MeditationTimer

/-- The `TimerState` enum of `types/timer.ts`. -/
inductive TimerState where
  | READY
  | RUNNING
  | PAUSED
  | COMPLETED
deriving DecidableEq

/-- The `TimerConfig` interface (callbacks are modelled by the invocation
counters in `Engine`, so only the data fields remain). -/
structure TimerConfig where
  initialMinutes : Nat
  autoReset : Bool
deriving DecidableEq

/-- The whole mutable state of one `useTimer` hook instance. -/
structure Engine where
  state : TimerState
  totalDuration : Nat
  remainingTime : Nat
  startTimeRef : Int
  pausedTimeRef : Int
  /-- `intervalRef.current`: handle of the interval the ref points at. -/
  intervalRef : Option Nat
  /-- Every interval created by `setInterval` and not yet cleared, newest
  first, with the `totalDuration` captured by its closure. -/
  liveIntervals : List (Nat × Nat)
  /-- Scheduled auto-reset timeouts (captured `totalDuration`), oldest first. -/
  pendingAutoResets : List Nat
  /-- Fresh-handle counter for `setInterval`. -/
  nextId : Nat
  /-- Number of invocations of `config.onComplete`. -/
  onCompleteCount : Nat
  /-- Number of invocations of `config.onTick`. -/
  onTickCount : Nat
deriving DecidableEq

/-- Hook initialisation: `useState(TimerState.READY)`,
`useState(config.initialMinutes * 60)` twice, refs initialised to 0/null. -/
def initEngine (cfg : TimerConfig) : Engine where
  state := TimerState.READY
  totalDuration := cfg.initialMinutes * 60
  remainingTime := cfg.initialMinutes * 60
  startTimeRef := 0
  pausedTimeRef := 0
  intervalRef := none
  liveIntervals := []
  pendingAutoResets := []
  nextId := 0
  onCompleteCount := 0
  onTickCount := 0

/-- `clearTimerInterval`: if `intervalRef.current` is set, clear that
interval and null the ref. -/
def clearTimerInterval (e : Engine) : Engine :=
  match e.intervalRef with
  | some i =>
      { e with liveIntervals := e.liveIntervals.filter (fun p => p.1 != i)
               intervalRef := none }
  | none => e

/-- `start`: guarded only by `remainingTime <= 0`; sets state RUNNING,
anchors `startTimeRef = Date.now() - pausedTimeRef.current`, and installs a
new interval (overwriting `intervalRef.current` without clearing it). -/
def start (now : Nat) (e : Engine) : Engine :=
  if e.remainingTime ≤ 0 then e
  else
    { e with
      state := TimerState.RUNNING
      startTimeRef := (now : Int) - e.pausedTimeRef
      intervalRef := some e.nextId
      liveIntervals := (e.nextId, e.totalDuration) :: e.liveIntervals
      nextId := e.nextId + 1 }

/-- One firing of the interval callback installed by `start`.  `id` is the
handle of the firing interval; the callback runs only if that interval is
still live, and uses the `totalDuration` captured by its closure.  The
completion branch runs `clearInterval(intervalRef.current!)` followed by
`intervalRef.current = null`, which is exactly `clearTimerInterval`. -/
def tick (cfg : TimerConfig) (now : Nat) (id : Nat) (e : Engine) : Engine :=
  match e.liveIntervals.find? (fun p => p.1 == id) with
  | none => e
  | some (_, capturedTotal) =>
    let elapsed : Int := (now : Int) - e.startTimeRef
    let newRemainingTime : Int := max 0 ((capturedTotal : Int) - Int.fdiv elapsed 1000)
    let e1 := { e with remainingTime := newRemainingTime.toNat
                       onTickCount := e.onTickCount + 1 }
    if newRemainingTime ≤ 0 then
      let e2 := clearTimerInterval e1
      let e3 := { e2 with state := TimerState.COMPLETED
                          pausedTimeRef := 0
                          onCompleteCount := e2.onCompleteCount + 1 }
      if cfg.autoReset then
        { e3 with pendingAutoResets := e3.pendingAutoResets ++ [capturedTotal] }
      else e3
    else e1

/-- The delayed callback scheduled by the auto-reset branch:
`setRemainingTime(totalDuration); setState(TimerState.READY)` with the
captured `totalDuration`. -/
def autoResetFire (e : Engine) : Engine :=
  match e.pendingAutoResets with
  | [] => e
  | capturedTotal :: rest =>
      { e with remainingTime := capturedTotal
               state := TimerState.READY
               pendingAutoResets := rest }

/-- `pause`: guarded by `state !== RUNNING`; clears the interval, sets state
PAUSED and banks `pausedTimeRef = Date.now() - startTimeRef.current`. -/
def pause (now : Nat) (e : Engine) : Engine :=
  if e.state ≠ TimerState.RUNNING then e
  else
    let e1 := clearTimerInterval e
    { e1 with state := TimerState.PAUSED
              pausedTimeRef := (now : Int) - e1.startTimeRef }

/-- `stop`: unguarded; clears the interval and restores the full duration. -/
def stop (e : Engine) : Engine :=
  let e1 := clearTimerInterval e
  { e1 with remainingTime := e1.totalDuration
            state := TimerState.READY
            pausedTimeRef := 0 }

/-- `reset`: textually identical to `stop` in the source. -/
def reset (e : Engine) : Engine :=
  let e1 := clearTimerInterval e
  { e1 with remainingTime := e1.totalDuration
            state := TimerState.READY
            pausedTimeRef := 0 }

/-- `setDuration`: guarded only by `state === RUNNING`; clamps
`minutes * 60` to `[60, 59940]` and resets the session. -/
def setDuration (minutes : Int) (e : Engine) : Engine :=
  if e.state = TimerState.RUNNING then e
  else
    let newDuration : Int := max 60 (min 59940 (minutes * 60))
    { e with totalDuration := newDuration.toNat
             remainingTime := newDuration.toNat
             state := TimerState.READY
             pausedTimeRef := 0 }

/-- External events that can hit a hook instance: the five commands (with
the wall-clock instant at which they run, where the command reads the
clock), one firing of an interval, and one firing of a scheduled
auto-reset timeout. -/
inductive Event where
  | start (now : Nat)
  | pause (now : Nat)
  | stop
  | reset
  | setDuration (minutes : Int)
  | tick (now : Nat) (id : Nat)
  | autoResetFire
deriving DecidableEq

/-- Dispatch one event. -/
def stepEvent (cfg : TimerConfig) : Event → Engine → Engine
  | Event.start now, e => start now e
  | Event.pause now, e => pause now e
  | Event.stop, e => stop e
  | Event.reset, e => reset e
  | Event.setDuration m, e => setDuration m e
  | Event.tick now id, e => tick cfg now id e
  | Event.autoResetFire, e => autoResetFire e

/-- Run a sequence of events. -/
def run (cfg : TimerConfig) (e : Engine) : List Event → Engine
  | [] => e
  | ev :: evs => run cfg (stepEvent cfg ev e) evs

/-! ## The derived display (`formatTime`, `createTimerDisplay`) -/

/-- Decimal rendering of a natural number, one digit per character, as JS
`Number.prototype.toString()` produces for a non-negative integer.  The
first argument is recursion fuel (any value `≥ n + 1` computes the same
list). -/
def natToStringAux : Nat → Nat → List Char
  | 0, _ => []
  | fuel + 1, n =>
      if n < 10 then [Nat.digitChar n]
      else natToStringAux fuel (n / 10) ++ [Nat.digitChar (n % 10)]

/-- JS `n.toString()` for a non-negative integer `n`. -/
def natToString (n : Nat) : String :=
  String.mk (natToStringAux (n + 1) n)

/-- JS `String.prototype.padStart(n, c)` for a single pad character. -/
def padStart (n : Nat) (c : Char) (s : String) : String :=
  if n ≤ s.length then s else String.mk (List.replicate (n - s.length) c) ++ s

/-- `formatTime` of `useTimer.ts` for a non-negative whole number of
seconds. -/
def formatTime (totalSeconds : Nat) : String :=
  let hours := totalSeconds / 3600
  let minutes := totalSeconds % 3600 / 60
  let seconds := totalSeconds % 60
  if hours > 0 then
    padStart 2 '0' (natToString hours) ++ ":" ++ padStart 2 '0' (natToString minutes)
      ++ ":" ++ padStart 2 '0' (natToString seconds)
  else
    padStart 2 '0' (natToString minutes) ++ ":" ++ padStart 2 '0' (natToString seconds)

/-- The `TimerDisplay` record (progress held as a rational). -/
structure TimerDisplay where
  formatted : String
  minutes : Nat
  seconds : Nat
  totalSeconds : Nat
  progress : ℚ
deriving DecidableEq

/-- `createTimerDisplay` of `useTimer.ts`. -/
def createTimerDisplay (remainingSeconds totalSeconds : Nat) : TimerDisplay :=
  let minutes := remainingSeconds / 60
  let seconds := remainingSeconds % 60
  let progress : ℚ :=
    if totalSeconds > 0 then
      ((totalSeconds : ℚ) - (remainingSeconds : ℚ)) / (totalSeconds : ℚ) * 100
    else 0
  { formatted := formatTime remainingSeconds
    minutes := minutes
    seconds := seconds
    totalSeconds := remainingSeconds
    progress := min 100 (max 0 progress) }

/-! ## Shapes of the formatted strings -/

/-- A string of exactly two decimal digits (a zero-padded `MM` or `SS`
field). -/
def isTwoDigitString (s : String) : Prop :=
  s.data.length = 2 ∧ ∀ c ∈ s.data, c.isDigit = true

instance (s : String) : Decidable (isTwoDigitString s) := by
  unfold isTwoDigitString; infer_instance

/-- `MM:SS` form: two zero-padded two-digit fields joined by a colon. -/
def isMMSSForm (s : String) : Prop :=
  ∃ mm ss, isTwoDigitString mm ∧ isTwoDigitString ss ∧ s = mm ++ ":" ++ ss

/-- `HH:MM:SS` form: an hours field of at least two digits (the source pads
hours with `padStart(2, '0')` as well) and two zero-padded two-digit
fields, joined by colons. -/
def isHHMMSSForm (s : String) : Prop :=
  ∃ hh mm ss, (2 ≤ hh.data.length ∧ ∀ c ∈ hh.data, c.isDigit = true) ∧
    isTwoDigitString mm ∧ isTwoDigitString ss ∧ s = hh ++ ":" ++ mm ++ ":" ++ ss

/-! ## Shared example configurations -/

/-- A one-minute session, no auto-reset. -/
def cfg1 : TimerConfig := ⟨1, false⟩

/-- A ten-minute session, no auto-reset. -/
def cfg10 : TimerConfig := ⟨10, false⟩

/-- The fifteen-minute session the home page constructs. -/
def cfg15 : TimerConfig := ⟨15, false⟩

/-- A one-minute session with auto-reset configured. -/
def cfg1A : TimerConfig := ⟨1, true⟩

/-! ## Helper lemmas about the decimal rendering -/

theorem digitChar_isDigit : ∀ d, d < 10 → (Nat.digitChar d).isDigit = true := by decide

theorem natToStringAux_all_digit :
    ∀ fuel n : Nat, ∀ c ∈ natToStringAux fuel n, c.isDigit = true := by
  intro fuel
  induction fuel with
  | zero => intro n c hc; simp [natToStringAux] at hc
  | succ f ih =>
      intro n c hc
      rw [natToStringAux] at hc
      by_cases h : n < 10
      · rw [if_pos h] at hc
        simp only [List.mem_singleton] at hc
        subst hc
        exact digitChar_isDigit n h
      · rw [if_neg h] at hc
        rcases List.mem_append.mp hc with h1 | h2
        · exact ih (n / 10) c h1
        · simp only [List.mem_singleton] at h2
          subst h2
          exact digitChar_isDigit (n % 10) (Nat.mod_lt n (by norm_num))

theorem natToString_all_digit (n : Nat) : ∀ c ∈ (natToString n).data, c.isDigit = true :=
  natToStringAux_all_digit (n + 1) n

theorem padStart2_isTwoDigit :
    ∀ n, n < 100 → isTwoDigitString (padStart 2 '0' (natToString n)) := by decide

theorem padStart2_length (s : String) : 2 ≤ (padStart 2 '0' s).data.length := by
  unfold padStart
  split
  · next h => exact h
  · next h =>
      push_neg at h
      have : (String.mk (List.replicate (2 - s.length) '0') ++ s).data
          = List.replicate (2 - s.length) '0' ++ s.data := String.data_append _ _
      rw [this, List.length_append, List.length_replicate]
      have hl : s.length = s.data.length := rfl
      omega

theorem padStart2_all_digit (s : String) (h : ∀ c ∈ s.data, c.isDigit = true) :
    ∀ c ∈ (padStart 2 '0' s).data, c.isDigit = true := by
  unfold padStart
  split
  · exact h
  · intro c hc
    rw [String.data_append] at hc
    rcases List.mem_append.mp hc with h1 | h2
    · rw [List.eq_of_mem_replicate h1]; decide
    · exact h c h2

/-! ## Helper lemmas about `formatTime` -/

theorem formatTime_eq_of_lt (s : Nat) (h : s < 3600) :
    formatTime s
      = padStart 2 '0' (natToString (s % 3600 / 60)) ++ ":"
          ++ padStart 2 '0' (natToString (s % 60)) := by
  simp only [formatTime]
  rw [Nat.div_eq_of_lt h]
  norm_num

theorem formatTime_eq_of_ge (s : Nat) (h : 3600 ≤ s) :
    formatTime s
      = padStart 2 '0' (natToString (s / 3600)) ++ ":"
          ++ padStart 2 '0' (natToString (s % 3600 / 60)) ++ ":"
          ++ padStart 2 '0' (natToString (s % 60)) := by
  simp only [formatTime]
  rw [if_pos (Nat.div_pos h (by norm_num))]

theorem formatTime_isMMSS (s : Nat) (h : s < 3600) : isMMSSForm (formatTime s) :=
  ⟨_, _, padStart2_isTwoDigit _ (by omega), padStart2_isTwoDigit _ (by omega),
    formatTime_eq_of_lt s h⟩

theorem formatTime_isHHMMSS (s : Nat) (h : 3600 ≤ s) : isHHMMSSForm (formatTime s) :=
  ⟨_, _, _,
    ⟨padStart2_length _, padStart2_all_digit _ (natToString_all_digit _)⟩,
    padStart2_isTwoDigit _ (by omega), padStart2_isTwoDigit _ (by omega),
    formatTime_eq_of_ge s h⟩

/-! ## Further shared definitions for concrete runs -/

/-- A session paused one second after starting. -/
def ePaused : Engine := run cfg1 (initEngine cfg1) [Event.start 0, Event.pause 1000]

/-- A one-minute session run to completion. -/
def eCompleted : Engine := run cfg1 (initEngine cfg1) [Event.start 0, Event.tick 60000 0]

/-- A run that calls `start` twice (the second call while RUNNING leaks the
first interval), stops, shrinks the duration, and then lets the leaked
interval fire. -/
def eLeaked : Engine :=
  run cfg10 (initEngine cfg10)
    [Event.start 0, Event.start 0, Event.stop, Event.setDuration 1, Event.tick 2000 0]

/-- A run where the auto-reset timeout scheduled at completion fires after
the user has already begun and paused a fresh session. -/
def eRaced : Engine :=
  run cfg1A (initEngine cfg1A)
    [Event.start 0, Event.tick 60000 0, Event.setDuration 1,
     Event.start 60500, Event.pause 61000, Event.autoResetFire]

/-! ## Shared lemmas about the operations -/

@[simp] theorem clearTimerInterval_state (e : Engine) :
    (clearTimerInterval e).state = e.state := by
  unfold clearTimerInterval; cases h : e.intervalRef <;> simp [h]

@[simp] theorem clearTimerInterval_totalDuration (e : Engine) :
    (clearTimerInterval e).totalDuration = e.totalDuration := by
  unfold clearTimerInterval; cases h : e.intervalRef <;> simp [h]

@[simp] theorem clearTimerInterval_remainingTime (e : Engine) :
    (clearTimerInterval e).remainingTime = e.remainingTime := by
  unfold clearTimerInterval; cases h : e.intervalRef <;> simp [h]

@[simp] theorem clearTimerInterval_startTimeRef (e : Engine) :
    (clearTimerInterval e).startTimeRef = e.startTimeRef := by
  unfold clearTimerInterval; cases h : e.intervalRef <;> simp [h]

@[simp] theorem clearTimerInterval_pausedTimeRef (e : Engine) :
    (clearTimerInterval e).pausedTimeRef = e.pausedTimeRef := by
  unfold clearTimerInterval; cases h : e.intervalRef <;> simp [h]

@[simp] theorem clearTimerInterval_pendingAutoResets (e : Engine) :
    (clearTimerInterval e).pendingAutoResets = e.pendingAutoResets := by
  unfold clearTimerInterval; cases h : e.intervalRef <;> simp [h]

@[simp] theorem clearTimerInterval_nextId (e : Engine) :
    (clearTimerInterval e).nextId = e.nextId := by
  unfold clearTimerInterval; cases h : e.intervalRef <;> simp [h]

@[simp] theorem clearTimerInterval_onCompleteCount (e : Engine) :
    (clearTimerInterval e).onCompleteCount = e.onCompleteCount := by
  unfold clearTimerInterval; cases h : e.intervalRef <;> simp [h]

/-- Whatever branch the interval callback takes, the remaining time it
stores is the clamped recomputation from the captured total and the
timestamp delta. -/
theorem tick_remainingTime (cfg : TimerConfig) (now id : Nat) (e : Engine)
    (cT : Nat)
    (hf : e.liveIntervals.find? (fun p => p.1 == id) = some (id, cT)) :
    (tick cfg now id e).remainingTime
      = (max 0 ((cT : Int)
          - Int.fdiv ((now : Int) - e.startTimeRef) 1000)).toNat := by
  unfold tick
  rw [hf]
  by_cases h : max 0 ((cT : Int) - Int.fdiv ((now : Int) - e.startTimeRef) 1000) ≤ 0
  · simp only [if_pos h]
    cases hcfg : cfg.autoReset <;> simp [hcfg]
  · simp only [if_neg h]

theorem setDuration_noop_of_running (e : Engine) (m : Int)
    (h : e.state = TimerState.RUNNING) : setDuration m e = e := by
  simp [setDuration, h]

theorem setDuration_applies_of_not_running (e : Engine) (m : Int)
    (h : e.state ≠ TimerState.RUNNING) :
    ((setDuration m e).totalDuration : Int) = 60 * max 1 (min 999 m) ∧
    (setDuration m e).remainingTime = (setDuration m e).totalDuration ∧
    (setDuration m e).state = TimerState.READY := by
  refine ⟨?_, ?_, ?_⟩ <;> simp only [setDuration, if_neg h]
  · rw [Int.toNat_of_nonneg (by omega)]
    omega

/-! ## Claim theorems -/

/-- C6: for every total duration `T > 0` and remaining `r ∈ [0, T]`, the
display progress equals `(T - r) / T * 100` and lies in `[0, 100]`; when
`T = 0` the progress is `0`. -/
theorem progress_formula (T r : Nat) :
    (0 < T → r ≤ T →
      (createTimerDisplay r T).progress = ((T : ℚ) - (r : ℚ)) / (T : ℚ) * 100 ∧
      0 ≤ (createTimerDisplay r T).progress ∧
      (createTimerDisplay r T).progress ≤ 100) ∧
    (createTimerDisplay r 0).progress = 0 := by
  constructor
  · intro hT hr
    have hT' : (0 : ℚ) < (T : ℚ) := by exact_mod_cast hT
    have hr' : (r : ℚ) ≤ (T : ℚ) := by exact_mod_cast hr
    have h0 : (0 : ℚ) ≤ ((T : ℚ) - (r : ℚ)) / (T : ℚ) * 100 := by
      apply mul_nonneg (div_nonneg (by linarith) hT'.le) (by norm_num)
    have h100 : ((T : ℚ) - (r : ℚ)) / (T : ℚ) * 100 ≤ 100 := by
      have h1 : ((T : ℚ) - (r : ℚ)) / (T : ℚ) ≤ 1 := by
        rw [div_le_one hT']; linarith
      calc ((T : ℚ) - (r : ℚ)) / (T : ℚ) * 100 ≤ 1 * 100 :=
            mul_le_mul_of_nonneg_right h1 (by norm_num)
        _ = 100 := by norm_num
    simp only [createTimerDisplay, if_pos hT]
    rw [max_eq_right h0, min_eq_right h100]
    exact ⟨rfl, h0, h100⟩
  · simp [createTimerDisplay]

/-- Witness for C6 at `T = 60`, `r = 30`. -/
theorem progress_formula_witness :
    (createTimerDisplay 30 60).progress = ((60 : ℚ) - (30 : ℚ)) / (60 : ℚ) * 100 ∧
    0 ≤ (createTimerDisplay 30 60).progress ∧
    (createTimerDisplay 30 60).progress ≤ 100 :=
  (progress_formula 60 30).1 (by norm_num) (by norm_num)

/-- C8: from READY, `setDuration m` never fails and sets
`totalDurationSeconds = clamp(m, 1, 999) * 60` with
`remainingSeconds = totalDurationSeconds`; `setDuration 0` gives 60 seconds
and `setDuration 1000` gives 59940 seconds. -/
theorem setDuration_silently_clamps (e : Engine) (m : Int)
    (h : e.state = TimerState.READY) :
    ((setDuration m e).totalDuration : Int) = 60 * max 1 (min 999 m) ∧
    (setDuration m e).remainingTime = (setDuration m e).totalDuration ∧
    (setDuration m e).state = TimerState.READY ∧
    (setDuration 0 e).totalDuration = 60 ∧
    (setDuration 1000 e).totalDuration = 59940 := by
  have hne : e.state ≠ TimerState.RUNNING := by rw [h]; decide
  obtain ⟨h1, h2, h3⟩ := setDuration_applies_of_not_running e m hne
  refine ⟨h1, h2, h3, ?_, ?_⟩
  · have := (setDuration_applies_of_not_running e 0 hne).1
    omega
  · have := (setDuration_applies_of_not_running e 1000 hne).1
    omega

/-- Witness for C8 at the 15-minute READY engine with `m = 5`. -/
theorem setDuration_silently_clamps_witness :
    ((setDuration 5 (initEngine cfg15)).totalDuration : Int) = 60 * max 1 (min 999 5) ∧
    (setDuration 5 (initEngine cfg15)).remainingTime
      = (setDuration 5 (initEngine cfg15)).totalDuration ∧
    (setDuration 5 (initEngine cfg15)).state = TimerState.READY ∧
    (setDuration 0 (initEngine cfg15)).totalDuration = 60 ∧
    (setDuration 1000 (initEngine cfg15)).totalDuration = 59940 :=
  setDuration_silently_clamps (initEngine cfg15) 5 rfl

/-- C9: `formatTime` renders `MM:SS` with zero-padded two-digit fields for
`s < 3600` and `HH:MM:SS` for `s ≥ 3600`; in particular 59940 seconds (the
result of `setDuration 999`) render as `16:39:00`. -/
theorem formatTime_round_trip :
    (∀ s : Nat, s < 3600 → isMMSSForm (formatTime s)) ∧
    (∀ s : Nat, 3600 ≤ s → isHHMMSSForm (formatTime s)) ∧
    formatTime 59940 = "16:39:00" ∧
    (setDuration 999 (initEngine cfg15)).totalDuration = 59940 :=
  ⟨formatTime_isMMSS, formatTime_isHHMMSS, rfl, by decide⟩

/-- Witness for C9 at `s = 899` and `s = 3600`. -/
theorem formatTime_round_trip_witness :
    isMMSSForm (formatTime 899) ∧ isHHMMSSForm (formatTime 3600) :=
  ⟨formatTime_round_trip.1 899 (by decide), formatTime_round_trip.2.1 3600 (by decide)⟩

/-- C5 counterexample: with a two-hour total duration but 30 minutes
remaining, the display is `30:00` (MM:SS), not an `HH:MM:SS` string, so the
branch is not keyed to the total session length. -/
theorem hour_branch_ignores_total :
    3600 ≤ 7200 ∧ (createTimerDisplay 1800 7200).formatted = "30:00" ∧
    ¬ isHHMMSSForm "30:00" := by
  refine ⟨by norm_num, rfl, ?_⟩
  rintro ⟨hh, mm, ss, ⟨hlen, -⟩, ⟨hmm, -⟩, ⟨hss, -⟩, heq⟩
  have h5 : ("30:00" : String).data.length = 5 := rfl
  rw [heq] at h5
  simp only [String.data_append, List.length_append] at h5
  have hc : (":" : String).data.length = 1 := rfl
  omega

/-- C5 amended: the formatted string is `formatTime remainingSeconds`, and
the `MM:SS` / `HH:MM:SS` branch is keyed to the remaining seconds (under
one hour remaining gives `MM:SS`, an hour or more remaining gives
`HH:MM:SS`), not to the total session length. -/
theorem display_branch_keyed_to_remaining (r T : Nat) :
    (createTimerDisplay r T).formatted = formatTime r ∧
    (r < 3600 → isMMSSForm ((createTimerDisplay r T).formatted)) ∧
    (3600 ≤ r → isHHMMSSForm ((createTimerDisplay r T).formatted)) :=
  ⟨rfl, fun h => formatTime_isMMSS r h, fun h => formatTime_isHHMMSS r h⟩

/-- Witness for amended C5 at `r = 1800`, `T = 7200`. -/
theorem display_branch_keyed_to_remaining_witness :
    (createTimerDisplay 1800 7200).formatted = formatTime 1800 ∧
    isMMSSForm ((createTimerDisplay 1800 7200).formatted) :=
  ⟨(display_branch_keyed_to_remaining 1800 7200).1,
    (display_branch_keyed_to_remaining 1800 7200).2.1 (by decide)⟩

/-- C4 counterexample: `setDuration` is only guarded against RUNNING; from
PAUSED it changes the total duration (60 s becomes 120 s) and forces READY. -/
theorem setDuration_while_paused_changes_duration :
    ePaused.state = TimerState.PAUSED ∧ ePaused.totalDuration = 60 ∧
    (setDuration 2 ePaused).totalDuration = 120 ∧
    (setDuration 2 ePaused).state = TimerState.READY := by decide

/-- C4 amended: `setDuration` is a no-op exactly while RUNNING; in every
other state (READY, PAUSED, COMPLETED) it clamps and applies the new
duration and forces the state back to READY. -/
theorem setDuration_noop_only_while_running :
    (∀ (e : Engine) (m : Int), e.state = TimerState.RUNNING → setDuration m e = e) ∧
    (∀ (e : Engine) (m : Int), e.state ≠ TimerState.RUNNING →
      ((setDuration m e).totalDuration : Int) = 60 * max 1 (min 999 m) ∧
      (setDuration m e).remainingTime = (setDuration m e).totalDuration ∧
      (setDuration m e).state = TimerState.READY) :=
  ⟨setDuration_noop_of_running, setDuration_applies_of_not_running⟩

/-- Witness for amended C4: no-op on a RUNNING engine. -/
theorem setDuration_noop_only_while_running_witness :
    setDuration 5 (start 0 (initEngine cfg1)) = start 0 (initEngine cfg1) :=
  setDuration_noop_only_while_running.1 (start 0 (initEngine cfg1)) 5 (by decide)

/-- C3 (code bug): after `start` twice (leaking the first interval),
`stop`, and `setDuration 1`, the leaked interval fires and drives
`remainingSeconds` to 598 while `totalDurationSeconds` is 60, violating
`remainingSeconds ≤ totalDurationSeconds`. -/
theorem leaked_interval_breaks_bounded_invariant :
    eLeaked.remainingTime = 598 ∧ eLeaked.totalDuration = 60 ∧
    ¬ eLeaked.remainingTime ≤ eLeaked.totalDuration := by decide

/-- C2 counterexample: `stop()` while COMPLETED is not a no-op — it moves
the engine back to READY and restores `remainingSeconds` from 0 to 60. -/
theorem stop_while_completed_changes_state :
    eCompleted.state = TimerState.COMPLETED ∧
    (stop eCompleted).state = TimerState.READY ∧
    eCompleted.remainingTime = 0 ∧ (stop eCompleted).remainingTime = 60 := by decide

/-- C2 amended: `pause` outside RUNNING and `setDuration` while RUNNING are
no-ops, and `start` is a no-op exactly when no time remains (hence while
COMPLETED); a second consecutive `pause`, `stop` or `reset` changes
nothing; but `stop`/`reset` always force READY (so they are not no-ops from
COMPLETED), and `start` while RUNNING re-anchors the timing origin rather
than being guarded. -/
theorem guarded_transitions_amended :
    (∀ (t : Nat) (e : Engine), e.state ≠ TimerState.RUNNING → pause t e = e) ∧
    (∀ (e : Engine) (m : Int), e.state = TimerState.RUNNING → setDuration m e = e) ∧
    (∀ (t : Nat) (e : Engine), e.remainingTime = 0 → start t e = e) ∧
    (∀ (t t' : Nat) (e : Engine), pause t' (pause t e) = pause t e) ∧
    (∀ e : Engine, stop (stop e) = stop e) ∧
    (∀ e : Engine, reset (reset e) = reset e) ∧
    (∀ e : Engine, (stop e).state = TimerState.READY ∧
      (stop e).remainingTime = (stop e).totalDuration) := by
  have hpause : ∀ (t : Nat) (e : Engine), e.state ≠ TimerState.RUNNING → pause t e = e := by
    intro t e h
    simp [pause, h]
  have hpstate : ∀ (t : Nat) (e : Engine), e.state = TimerState.RUNNING →
      (pause t e).state = TimerState.PAUSED := by
    intro t e h
    cases hir : e.intervalRef <;> simp [pause, h, clearTimerInterval, hir]
  refine ⟨hpause, fun e m h => setDuration_noop_of_running e m h, ?_, ?_, ?_, ?_, ?_⟩
  · intro t e h
    simp [start, h]
  · intro t t' e
    by_cases h : e.state = TimerState.RUNNING
    · apply hpause
      rw [hpstate t e h]
      decide
    · rw [hpause t e h, hpause t' e h]
  · intro e
    obtain ⟨st, td, rt, str, ptr, ir, li, par, ni, oc, ot⟩ := e
    cases ir <;> simp [stop, clearTimerInterval]
  · intro e
    obtain ⟨st, td, rt, str, ptr, ir, li, par, ni, oc, ot⟩ := e
    cases ir <;> simp [reset, clearTimerInterval]
  · intro e
    obtain ⟨st, td, rt, str, ptr, ir, li, par, ni, oc, ot⟩ := e
    cases ir <;> simp [stop, clearTimerInterval]

/-- Witness for amended C2: `pause` on the READY initial engine is a no-op. -/
theorem guarded_transitions_amended_witness :
    pause 7 (initEngine cfg1) = initEngine cfg1 :=
  guarded_transitions_amended.1 7 (initEngine cfg1) (by decide)

/-! ## The READY-implies-zero-offset invariant -/

/-- Inductive invariant for the amended C10: no auto-reset timeout is
pending, and in READY the banked paused offset is zero. -/
def readyOffsetInv (e : Engine) : Prop :=
  e.pendingAutoResets = [] ∧ (e.state = TimerState.READY → e.pausedTimeRef = 0)

theorem readyOffsetInv_step (cfg : TimerConfig) (h : cfg.autoReset = false)
    (ev : Event) (e : Engine) (he : readyOffsetInv e) :
    readyOffsetInv (stepEvent cfg ev e) := by
  obtain ⟨st, td, rt, str, ptr, ir, li, par, ni, oc, ot⟩ := e
  obtain ⟨hp, hr⟩ := he
  simp only at hp hr
  subst hp
  cases ev with
  | start now =>
      simp only [stepEvent, start]
      split
      · exact ⟨rfl, hr⟩
      · exact ⟨rfl, fun hx => nomatch hx⟩
  | pause now =>
      simp only [stepEvent, pause]
      split
      · exact ⟨rfl, hr⟩
      · cases ir <;> exact ⟨rfl, fun hx => nomatch hx⟩
  | stop =>
      cases ir <;> exact ⟨rfl, fun _ => rfl⟩
  | reset =>
      cases ir <;> exact ⟨rfl, fun _ => rfl⟩
  | setDuration m =>
      simp only [stepEvent, setDuration]
      split
      · exact ⟨rfl, hr⟩
      · exact ⟨rfl, fun _ => rfl⟩
  | tick now id =>
      simp only [stepEvent, tick]
      cases hf : List.find? (fun p => p.1 == id) li with
      | none => exact ⟨rfl, hr⟩
      | some p =>
          obtain ⟨a, cT⟩ := p
          simp only [h]
          split
          · cases ir <;> exact ⟨rfl, fun hx => nomatch hx⟩
          · exact ⟨rfl, hr⟩
  | autoResetFire =>
      exact ⟨rfl, hr⟩

theorem readyOffsetInv_run (cfg : TimerConfig) (h : cfg.autoReset = false) :
    ∀ (evts : List Event) (e : Engine),
      readyOffsetInv e → readyOffsetInv (run cfg e evts) := by
  intro evts
  induction evts with
  | nil => exact fun e he => he
  | cons ev evs ih => exact fun e he => ih _ (readyOffsetInv_step cfg h ev e he)

/-- C10 counterexample: with auto-reset configured, the completion timeout
can fire after the user has already configured, started and paused a fresh
session, landing the engine in READY with a banked offset of 500 ms. -/
theorem autoreset_race_leaves_ready_with_banked_offset :
    eRaced.state = TimerState.READY ∧ eRaced.pausedTimeRef = 500 := by decide

/-- C10 amended: for every engine without auto-reset configured and every
event sequence, reaching READY implies the banked paused offset is zero
(with auto-reset, a pending completion timeout firing after intervening
operations can leave READY with a non-zero offset). -/
theorem ready_implies_zero_banked_offset (cfg : TimerConfig)
    (h : cfg.autoReset = false) (evts : List Event)
    (hr : (run cfg (initEngine cfg) evts).state = TimerState.READY) :
    (run cfg (initEngine cfg) evts).pausedTimeRef = 0 :=
  (readyOffsetInv_run cfg h evts (initEngine cfg) ⟨rfl, fun _ => rfl⟩).2 hr

/-- Witness for amended C10: start, pause, stop lands in READY with zero
banked offset. -/
theorem ready_implies_zero_banked_offset_witness :
    (run cfg1 (initEngine cfg1)
      [Event.start 0, Event.pause 1000, Event.stop]).pausedTimeRef = 0 :=
  ready_implies_zero_banked_offset cfg1 rfl
    [Event.start 0, Event.pause 1000, Event.stop] (by decide)

/-- C1: pause/resume preserves the remaining time.  For a RUNNING engine
whose current interval captured the current total duration, an evaluation
at the instant of resume (after `pause` at `t` and `start` at any later
instant `tr`) yields exactly the remaining seconds an evaluation at the
instant of pause yields: the paused interval contributes nothing. -/
theorem pause_resume_preserves_remaining (cfg cfg' : TimerConfig)
    (e : Engine) (t tr : Nat) (c T : Nat)
    (hrun : e.state = TimerState.RUNNING)
    (hfind : e.liveIntervals.find? (fun p => p.1 == c) = some (c, T))
    (hcap : T = e.totalDuration)
    (hrem : 0 < e.remainingTime) :
    (tick cfg' tr e.nextId (start tr (pause t e))).remainingTime
      = (tick cfg t c e).remainingTime := by
  have hg : ¬ e.state ≠ TimerState.RUNNING := by simp [hrun]
  have h1 : (pause t e).remainingTime = e.remainingTime := by
    rw [pause, if_neg hg]; simp
  have h2 : (pause t e).pausedTimeRef = (t : Int) - e.startTimeRef := by
    rw [pause, if_neg hg]; simp
  have h3 : (pause t e).nextId = e.nextId := by
    rw [pause, if_neg hg]; simp
  have h4 : (pause t e).totalDuration = e.totalDuration := by
    rw [pause, if_neg hg]; simp
  have h5 : ¬ (pause t e).remainingTime ≤ 0 := by rw [h1]; omega
  have h6 : start tr (pause t e)
      = { pause t e with
          state := TimerState.RUNNING
          startTimeRef := (tr : Int) - (pause t e).pausedTimeRef
          intervalRef := some (pause t e).nextId
          liveIntervals :=
            ((pause t e).nextId, (pause t e).totalDuration) :: (pause t e).liveIntervals
          nextId := (pause t e).nextId + 1 } := by
    rw [start, if_neg h5]
  have h7 : (start tr (pause t e)).liveIntervals.find?
      (fun p => p.1 == e.nextId) = some (e.nextId, e.totalDuration) := by
    rw [h6]
    show List.find? _ (((pause t e).nextId, (pause t e).totalDuration) :: _)
      = some (e.nextId, e.totalDuration)
    rw [List.find?_cons_of_pos _ (by simp [h3])]
    rw [h3, h4]
  have h8 : (start tr (pause t e)).startTimeRef
      = (tr : Int) - ((t : Int) - e.startTimeRef) := by
    rw [h6]; show (tr : Int) - (pause t e).pausedTimeRef = _; rw [h2]
  rw [tick_remainingTime cfg' tr e.nextId _ e.totalDuration h7,
    tick_remainingTime cfg t c e T hfind, h8, hcap]
  have harg : (tr : Int) - ((tr : Int) - ((t : Int) - e.startTimeRef))
      = (t : Int) - e.startTimeRef := by ring
  rw [harg]

/-- Witness for C1: one-minute session started at 0, evaluated and paused
at 5 s, resumed at 10 s — both evaluations give 55 s remaining. -/
theorem pause_resume_preserves_remaining_witness :
    (tick cfg1 10000 (start 0 (initEngine cfg1)).nextId
        (start 10000 (pause 5000 (start 0 (initEngine cfg1))))).remainingTime
      = (tick cfg1 5000 0 (start 0 (initEngine cfg1))).remainingTime :=
  pause_resume_preserves_remaining cfg1 cfg1 (start 0 (initEngine cfg1))
    5000 10000 0 60 (by decide) (by decide) (by decide) (by decide)

/-! ## The single-start completion run -/

/-- Inductive invariant for C7: after `start` from READY and any number of
interval firings, the engine is either still mid-run (RUNNING, callback not
yet invoked, the single interval live and anchored at `t0`) or completed
(COMPLETED, callback invoked exactly once, interval cleared, zero
remaining). -/
def singleRunInv (t0 T : Nat) (e : Engine) : Prop :=
  (e.state = TimerState.RUNNING ∧ e.onCompleteCount = 0 ∧
    e.intervalRef = some 0 ∧ e.liveIntervals = [(0, T)] ∧
    e.startTimeRef = (t0 : Int) ∧ e.totalDuration = T)
  ∨ (e.state = TimerState.COMPLETED ∧ e.onCompleteCount = 1 ∧
    e.intervalRef = none ∧ e.liveIntervals = [] ∧ e.remainingTime = 0)

theorem singleRunInv_tick (cfg : TimerConfig) (t0 T : Nat) (e : Engine)
    (t : Nat) (he : singleRunInv t0 T e) :
    singleRunInv t0 T (tick cfg t 0 e) ∧
    (e.state = TimerState.COMPLETED → tick cfg t 0 e = e) ∧
    (t0 + T * 1000 ≤ t → (tick cfg t 0 e).state = TimerState.COMPLETED) := by
  rcases he with ⟨h1, h2, h3, h4, h5, h6⟩ | ⟨h1, h2, h3, h4, h5⟩
  · -- mid-run
    have hnc : e.state ≠ TimerState.COMPLETED := by rw [h1]; decide
    have hf : e.liveIntervals.find? (fun p => p.1 == 0) = some (0, T) := by
      rw [h4]
      exact List.find?_cons_of_pos _ (by simp)
    have hfd : Int.fdiv ((t : Int) - e.startTimeRef) 1000
        = ((t : Int) - (t0 : Int)) / 1000 := by
      rw [h5, Int.fdiv_eq_ediv _ (by norm_num)]
    by_cases hM : max 0 ((T : Int) - Int.fdiv ((t : Int) - e.startTimeRef) 1000) ≤ 0
    · -- this firing completes the session
      have hB : (tick cfg t 0 e).state = TimerState.COMPLETED ∧
          (tick cfg t 0 e).onCompleteCount = 1 ∧
          (tick cfg t 0 e).intervalRef = none ∧
          (tick cfg t 0 e).liveIntervals = [] ∧
          (tick cfg t 0 e).remainingTime = 0 := by
        unfold tick
        rw [hf]
        simp only [if_pos hM]
        cases hcfg : cfg.autoReset <;>
          simp [clearTimerInterval, h3, h4, h2, Int.toNat_eq_zero.mpr hM,
            List.filter]
      exact ⟨Or.inr hB, fun hc => absurd hc hnc, fun _ => hB.1⟩
    · -- still running
      have hA : (tick cfg t 0 e).state = TimerState.RUNNING ∧
          (tick cfg t 0 e).onCompleteCount = 0 ∧
          (tick cfg t 0 e).intervalRef = some 0 ∧
          (tick cfg t 0 e).liveIntervals = [(0, T)] ∧
          (tick cfg t 0 e).startTimeRef = (t0 : Int) ∧
          (tick cfg t 0 e).totalDuration = T := by
        unfold tick
        rw [hf]
        simp only [if_neg hM]
        exact ⟨h1, h2, h3, h4, h5, h6⟩
      refine ⟨Or.inl hA, fun hc => absurd hc hnc, fun hb => ?_⟩
      exfalso
      apply hM
      rw [hfd]
      omega
  · -- already completed: the interval is gone, the firing is a no-op
    have hid : tick cfg t 0 e = e := by
      unfold tick
      rw [h4]
      simp [List.find?]
    refine ⟨?_, fun _ => hid, fun _ => ?_⟩
    · rw [hid]; exact Or.inr ⟨h1, h2, h3, h4, h5⟩
    · rw [hid]; exact h1

theorem singleRunInv_run (cfg : TimerConfig) (t0 T : Nat) :
    ∀ (ts : List Nat) (e : Engine), singleRunInv t0 T e →
      singleRunInv t0 T (run cfg e (ts.map (fun t => Event.tick t 0))) ∧
      ((∃ t ∈ ts, t0 + T * 1000 ≤ t) ∨ e.state = TimerState.COMPLETED →
        (run cfg e (ts.map (fun t => Event.tick t 0))).state
          = TimerState.COMPLETED) := by
  intro ts
  induction ts with
  | nil =>
      intro e he
      refine ⟨he, fun h => ?_⟩
      rcases h with ⟨t, ht, -⟩ | h
      · exact absurd ht (List.not_mem_nil t)
      · exact h
  | cons t rest ih =>
      intro e he
      obtain ⟨ha, hb, hc⟩ := singleRunInv_tick cfg t0 T e t he
      refine ⟨(ih _ ha).1, fun hd => ?_⟩
      rcases hd with ⟨u, hu, hbound⟩ | hdone
      · rcases List.mem_cons.mp hu with rfl | hu'
        · exact (ih _ ha).2 (Or.inr (hc hbound))
        · exact (ih _ ha).2 (Or.inl ⟨u, hu', hbound⟩)
      · have hid := hb hdone
        exact (ih _ ha).2 (Or.inr (by rw [hid]; exact hdone))

/-- C7: starting a fresh session from READY and letting only interval
firings happen, the completion callback runs at most once; it has run
exactly once iff the engine is COMPLETED, in which case no time remains;
and any firing at or beyond the completion instant drives the engine to
COMPLETED (so the callback count is then exactly one, never zero). -/
theorem onComplete_exactly_once (cfg : TimerConfig)
    (hm : 1 ≤ cfg.initialMinutes) (t0 : Nat) (ts : List Nat) :
    (run cfg (start t0 (initEngine cfg))
        (ts.map (fun t => Event.tick t 0))).onCompleteCount ≤ 1 ∧
    ((run cfg (start t0 (initEngine cfg))
        (ts.map (fun t => Event.tick t 0))).state = TimerState.COMPLETED ↔
      (run cfg (start t0 (initEngine cfg))
        (ts.map (fun t => Event.tick t 0))).onCompleteCount = 1) ∧
    ((run cfg (start t0 (initEngine cfg))
        (ts.map (fun t => Event.tick t 0))).state = TimerState.COMPLETED →
      (run cfg (start t0 (initEngine cfg))
        (ts.map (fun t => Event.tick t 0))).remainingTime = 0) ∧
    ((∃ t ∈ ts, t0 + cfg.initialMinutes * 60 * 1000 ≤ t) →
      (run cfg (start t0 (initEngine cfg))
        (ts.map (fun t => Event.tick t 0))).state = TimerState.COMPLETED) := by
  have hg : ¬ (initEngine cfg).remainingTime ≤ 0 := by
    show ¬ cfg.initialMinutes * 60 ≤ 0
    omega
  have hinit : singleRunInv t0 (cfg.initialMinutes * 60)
      (start t0 (initEngine cfg)) := by
    refine Or.inl ?_
    rw [start, if_neg hg]
    refine ⟨rfl, rfl, rfl, rfl, ?_, rfl⟩
    show (t0 : Int) - 0 = (t0 : Int)
    ring
  obtain ⟨hfin, hcomp⟩ :=
    singleRunInv_run cfg t0 (cfg.initialMinutes * 60) ts
      (start t0 (initEngine cfg)) hinit
  refine ⟨?_, ?_, ?_, fun hex => hcomp (Or.inl hex)⟩
  · rcases hfin with ⟨-, h2, -⟩ | ⟨-, h2, -⟩ <;> omega
  · rcases hfin with ⟨h1, h2, -⟩ | ⟨h1, h2, -⟩ <;>
      constructor <;> intro hx <;> simp_all
  · rcases hfin with ⟨h1, -⟩ | ⟨-, -, -, -, h5⟩
    · intro hx; rw [h1] at hx; exact absurd hx (by decide)
    · exact fun _ => h5

/-- Witness for C7: one-minute session started at 0 with a single firing at
60 s completes with the callback invoked exactly once. -/
theorem onComplete_exactly_once_witness :
    (run cfg1 (start 0 (initEngine cfg1))
        ([60000].map (fun t => Event.tick t 0))).onCompleteCount ≤ 1 ∧
    ((run cfg1 (start 0 (initEngine cfg1))
        ([60000].map (fun t => Event.tick t 0))).state = TimerState.COMPLETED ↔
      (run cfg1 (start 0 (initEngine cfg1))
        ([60000].map (fun t => Event.tick t 0))).onCompleteCount = 1) ∧
    ((run cfg1 (start 0 (initEngine cfg1))
        ([60000].map (fun t => Event.tick t 0))).state = TimerState.COMPLETED →
      (run cfg1 (start 0 (initEngine cfg1))
        ([60000].map (fun t => Event.tick t 0))).remainingTime = 0) ∧
    ((∃ t ∈ [60000], 0 + 1 * 60 * 1000 ≤ t) →
      (run cfg1 (start 0 (initEngine cfg1))
        ([60000].map (fun t => Event.tick t 0))).state = TimerState.COMPLETED) :=
  onComplete_exactly_once cfg1 (by decide) 0 [60000]


end MeditationTimer
